import Mathlib

/-!
Verification of the ATSLab utilities: the interactive table explorer of
src/data_scrapping/utils_BEA.py, the grouped heatmap builder of
src/analysis/utils_plot.py, and the airport ratings fetcher of
src/data_scrapping/airport_ratings_scraper.py, embedded shallowly and
checked against the repository's specification.
-/

namespace ATSLab

/-! ## Interactive table explorer: explore_dataframe.update (utils_BEA.py) -/

/-- A displayed row: the stringified values of each column in column order.
The code applies astype(str) to a column before matching, so values are
modelled directly as strings; the value of column i of row r is r.getD i "". -/
abbrev Row := List String

/-- The whitespace characters removed by Python str.strip(): space, tab,
newline, carriage return, vertical tab (11) and form feed (12). -/
def isPySpace (c : Char) : Bool :=
  c = ' ' || c = '\t' || c = '\n' || c = '\r' || Char.ofNat 11 = c || Char.ofNat 12 = c

/-- Truthiness of widget.value.strip() in the guard of the filter loop: the
filter text is active iff it contains at least one non-whitespace character. -/
def isActive (s : String) : Bool := s.toList.any (fun c => !(isPySpace c))

/-- One pattern character matched against one subject character as Python
re.search with re.IGNORECASE does it, for patterns whose only regex
metacharacter is the dot: a dot matches every character except a newline,
any other pattern character matches up to case. -/
def charMatchRe (p c : Char) : Bool :=
  if p = '.' then decide (c ≠ '\n') else p.toLower = c.toLower

/-- One pattern character matched literally up to case, the reading of the
spec sentence in which the filter text occurs verbatim (ignoring case). -/
def charMatchLit (p c : Char) : Bool := p.toLower = c.toLower

/-- Does the pattern match a prefix of the subject, character by character,
under the character matcher m? -/
def matchAt (m : Char → Char → Bool) : List Char → List Char → Bool
  | [], _ => true
  | _ :: _, [] => false
  | p :: ps, c :: cs => m p c && matchAt m ps cs

/-- Does the pattern match at some position of the subject? -/
def searchFrom (m : Char → Char → Bool) (pat : List Char) : List Char → Bool
  | [] => matchAt m pat []
  | c :: cs => matchAt m pat (c :: cs) || searchFrom m pat cs

/-- pandas Series.str.contains(text, case=False, na=False) with its default
regex=True, as used on line 152 of utils_BEA.py, embedded for filter texts
whose only regex metacharacter is the dot: Python re.search with IGNORECASE
against the stringified value. -/
def strContains (pat v : String) : Bool := searchFrom charMatchRe pat.toList v.toList

/-- Case-insensitive literal substring occurrence: the text occurs verbatim,
ignoring case only.  This is the matching the spec sentence describes and is
compared against strContains, the matching the code performs. -/
def substrCI (pat v : String) : Bool := searchFrom charMatchLit pat.toList v.toList

/-- One iteration of the filter loop of update: if the filter text of column
i is active, keep exactly the rows whose stringified value in column i
matches the (unstripped) text. -/
def filterStep (rows : List Row) (i : Nat) (f : String) : List Row :=
  if isActive f then rows.filter (fun r => strContains f (r.getD i "")) else rows

/-- The filter loop of update: filter texts are visited in column order,
each active one narrowing the current frame. -/
def applyFiltersFrom (i : Nat) : List String → List Row → List Row
  | [], rows => rows
  | f :: fs, rows => applyFiltersFrom (i + 1) fs (filterStep rows i f)

/-- All column filters applied to the frame, starting from column 0. -/
def applyFilters (fs : List String) (rows : List Row) : List Row :=
  applyFiltersFrom 0 fs rows

/-- The conjunction of the per-column conditions the filter loop enforces on
one row, for the filter texts fs of columns i, i+1, ... -/
def keepFrom (i : Nat) (fs : List String) (r : Row) : Bool :=
  match fs with
  | [] => true
  | f :: fs => (!isActive f || strContains f (r.getD i "")) && keepFrom (i + 1) fs r

/-- The keep predicate in the words of the spec sentence: every active
filter text occurs as a case-insensitive literal substring of the
stringified value of its column. -/
def specLiteralKeep (fs : List String) (r : Row) : Bool :=
  (List.range fs.length).all
    (fun j => !isActive (fs.getD j "") || substrCI (fs.getD j "") (r.getD j ""))

/-- Total page count: max(1, math.ceil(len(df_filtered) / page_size)),
with the ceiling written exactly over the naturals (page_size >= 1). -/
def nPages (n P : Nat) : Nat := max 1 ((n + P - 1) / P)

/-- The page used for the slice: min(page_slider.value, n_pages). -/
def currentPage (v n P : Nat) : Nat := min v (nPages n P)

/-- The status line printed after the slice. -/
def statusLine (page total found : Nat) : String :=
  "Page " ++ toString page ++ "/" ++ toString total ++ " | " ++
    toString found ++ " rows found"

/-- One recompute of the explorer: filter, repaginate, clamp the page, slice
to the page window and render the slice with the status line. -/
def updateView (fs : List String) (page P : Nat) (rows : List Row) : List Row × String :=
  let fl := applyFilters fs rows
  let np := nPages fl.length P
  let cp := min page np
  ((fl.drop ((cp - 1) * P)).take P, statusLine cp np fl.length)

/-! ## Grouped heatmap builder: plot_heatmap_by_group (utils_plot.py) -/

section Heatmap

variable {G X Y : Type} [DecidableEq G] [DecidableEq X] [DecidableEq Y]

/-- The input frame projected to the three columns the builder reads:
one (group, x, y) triple per row. -/
abbrev HRow (G X Y : Type) := G × X × Y

/-- df.group_by([group_col, x_col, y_col]).len(): one entry per distinct
observed combination, with the number of rows realizing it. -/
def comboCounts (df : List (HRow G X Y)) : List (HRow G X Y × Nat) :=
  df.dedup.map (fun c => (c, df.countP (fun r => decide (r = c))))

/-- df_counts[group_col].unique(): the distinct group values observed. -/
def groupVals (df : List (HRow G X Y)) : List G :=
  ((comboCounts df).map (fun p => p.1.1)).dedup

/-- df_counts[x_col].unique(): the x values observed across the whole table. -/
def allX (df : List (HRow G X Y)) : List X :=
  ((comboCounts df).map (fun p => p.1.2.1)).dedup

/-- df_counts[y_col].unique(): the y values observed across the whole table. -/
def allY (df : List (HRow G X Y)) : List Y :=
  ((comboCounts df).map (fun p => p.1.2.2)).dedup

/-- One cell of the pivoted and reindexed table of a group, before
normalization: the count of the combination as a float when the group
realizes it, and NaN (here none) otherwise. -/
def rawCell (df : List (HRow G X Y)) (g : G) (y : Y) (x : X) : Option ℚ :=
  match (comboCounts df).find? (fun p => decide (p.1 = (g, x, y))) with
  | some p => some (p.2 : ℚ)
  | none => none

/-- np.nansum over the dense grid of cells of one panel: NaN cells count
as zero. -/
def gridSum (df : List (HRow G X Y)) (f : Y → X → Option ℚ) : ℚ :=
  ((allY df).map (fun y => ((allX df).map (fun x => (f y x).getD 0)).sum)).sum

/-- total = np.nansum(df_filtered.values): the observed count of a group,
summed over its dense panel. -/
def totalG (df : List (HRow G X Y)) (g : G) : ℚ := gridSum df (rawCell df g)

/-- One cell after the normalization step: divided by the group total and
scaled to percent when normalize is on and the total is positive, the raw
cell otherwise.  NaN cells stay NaN. -/
def normCell (df : List (HRow G X Y)) (normalize : Bool) (g : G) (y : Y) (x : X) :
    Option ℚ :=
  if normalize = true ∧ 0 < totalG df g then
    (rawCell df g y x).map (fun c => c / totalG df g * 100)
  else rawCell df g y x

/-- One heatmap panel: its axis index lists, its dense cell table and
whether its values were normalized (which drives the PERCENT/COUNT label
of the hover text). -/
structure Panel (X Y : Type) where
  xs : List X
  ys : List Y
  cell : Y → X → Option ℚ
  isNormalized : Bool

/-- The panel built for one group value inside the loop of
plot_heatmap_by_group: pivot, reindex to the global axes, optionally
normalize. -/
def panelFor (df : List (HRow G X Y)) (normalize : Bool) (g : G) : Panel X Y :=
  { xs := allX df
    ys := allY df
    cell := normCell df normalize g
    isNormalized := normalize && decide (0 < totalG df g) }

/-- The metric label of the hover text and text template of one panel. -/
def metricLabel (isNormalized : Bool) : String :=
  if isNormalized then "PERCENT" else "COUNT"

end Heatmap

/-! ## Airport ratings fetcher: airport_ratings_scraper.py -/

/-- A Python value appearing in an output record: None, a string, or a
number (rating or review count). -/
inductive PyVal where
  | null : PyVal
  | str (s : String) : PyVal
  | num (q : ℚ) : PyVal
deriving DecidableEq

/-- The fields of resp.get("result", \x7b\x7d) that get_airport_details
requests: each is PyVal.null when the response omits it, mirroring
dict.get returning None. -/
structure DetailsResult where
  name : PyVal
  rating : PyVal
  user_ratings_total : PyVal
deriving DecidableEq

/-- The remote Places API, abstracted: findPlace gives the place_id fields
of resp["candidates"] for a Find Place query, details gives the result
object of the Details call for a place_id. -/
structure PlacesEnv where
  findPlace : String → List String
  details : String → DetailsResult

/-- get_place_id: the first candidate's place_id, or None when the
candidates list is empty or absent. -/
def get_place_id (env : PlacesEnv) (query : String) : Option String :=
  match env.findPlace query with
  | [] => none
  | c :: _ => some c

/-- Python truthiness test applied to an optional string, as in the two
occurrences of the check on place_id in main: None and the empty string
are falsy, every other string is truthy. -/
def pyFalsy : Option String → Bool
  | none => true
  | some s => s.isEmpty

/-- The record appended when both lookups fail. -/
def failRecord (code name : String) : List (String × PyVal) :=
  [("APT_CODE", PyVal.str code), ("APT_NAME", PyVal.str name),
   ("rating", PyVal.null), ("reviews", PyVal.null)]

/-- The record appended after a successful lookup, carrying the fields of
the Details response. -/
def successRecord (code name : String) (d : DetailsResult) : List (String × PyVal) :=
  [("APT_CODE", PyVal.str code), ("APT_NAME", PyVal.str name),
   ("GOOGLE_NAME", d.name), ("rating", d.rating), ("reviews", d.user_ratings_total)]

/-- The body of the loop of main for one input row: query with the short
code first, retry with the full name when the result is falsy, append the
null record when still falsy, and otherwise fetch details and append the
full record.  The function is total: no exception escapes a row. -/
def processRow (env : PlacesEnv) (code name : String) : List (String × PyVal) :=
  let pid0 := get_place_id env (code ++ " Airport")
  let pid := if pyFalsy pid0 then get_place_id env name else pid0
  if pyFalsy pid then failRecord code name
  else successRecord code name (env.details (pid.getD ""))

/-- Key lookup in an output record, as a Python dict access. -/
def recGet (rec : List (String × PyVal)) (k : String) : Option PyVal :=
  (rec.find? (fun p => decide (p.1 = k))).map (fun p => p.2)

/-! ## Concrete frames and environments used by the witnesses -/

/-- The three-row example table of the specification's section 8. -/
def dfEx : List (HRow String String String) :=
  [("A", "lo", "east"), ("A", "hi", "east"), ("B", "lo", "west")]

/-- A one-row table in which the group value A never occurs. -/
def dfNoA : List (HRow String String String) := [("B", "x1", "y1")]

/-- A concrete Places environment: the short-code query NOP Airport has no
candidate, the full name Nowhere Intl resolves to PID1, and every other
query has no candidate. -/
def envEx : PlacesEnv :=
  { findPlace := fun q =>
      if q = "NOP Airport" then []
      else if q = "Nowhere Intl" then ["PID1"]
      else []
    details := fun p =>
      if p = "PID1" then
        ⟨PyVal.str "Nowhere International", PyVal.num (9 / 2), PyVal.num 1234⟩
      else ⟨PyVal.null, PyVal.null, PyVal.null⟩ }

/-! ## Helper lemmas: the filter loop as one predicate -/

theorem applyFiltersFrom_eq_filter (fs : List String) (i : Nat) (rows : List Row) :
    applyFiltersFrom i fs rows = rows.filter (keepFrom i fs) := by
  induction fs generalizing i rows with
  | nil => simp [applyFiltersFrom, keepFrom]
  | cons f fs ih =>
    rw [applyFiltersFrom, ih, filterStep]
    cases hb : isActive f with
    | true =>
      rw [if_pos rfl, List.filter_filter]
      exact List.filter_congr (fun r _ => by simp [keepFrom, hb, Bool.and_comm])
    | false =>
      rw [if_neg (by simp)]
      exact List.filter_congr (fun r _ => by simp [keepFrom, hb])

theorem keepFrom_iff (i : Nat) (fs : List String) (r : Row) :
    keepFrom i fs r = true ↔
      ∀ j, j < fs.length → isActive (fs.getD j "") = true →
        strContains (fs.getD j "") (r.getD (i + j) "") = true := by
  induction fs generalizing i with
  | nil => simp [keepFrom]
  | cons f fs ih =>
    rw [keepFrom, Bool.and_eq_true, ih]
    constructor
    · rintro ⟨h0, hrest⟩ j hj hact
      cases j with
      | zero =>
        simp only [List.getD_cons_zero] at hact ⊢
        rw [hact] at h0
        simpa using h0
      | succ k =>
        have hmem := hrest k (by simpa using hj) (by simpa using hact)
        have e : i + 1 + k = i + (k + 1) := by omega
        rw [e] at hmem
        simpa using hmem
    · intro h
      refine ⟨?_, fun j hj hact => ?_⟩
      · cases hb : isActive f with
        | false => simp [hb]
        | true =>
          have hc := h 0 (by simp) (by simpa using hb)
          simp only [List.getD_cons_zero] at hc
          simp only [Nat.add_zero] at hc
          exact (Bool.or_eq_true _ _).mpr (Or.inr hc)
      · have hc := h (j + 1) (by simpa using hj) (by simpa using hact)
        have e : i + (j + 1) = i + 1 + j := by omega
        rw [e] at hc
        simpa using hc

theorem matchAt_noDot (pat s : List Char) (hnd : ∀ c ∈ pat, c ≠ '.') :
    matchAt charMatchRe pat s = matchAt charMatchLit pat s := by
  induction pat generalizing s with
  | nil => rfl
  | cons p ps ih =>
    cases s with
    | nil => rfl
    | cons c cs =>
      have hp : p ≠ '.' := hnd p (by simp)
      rw [matchAt, matchAt, ih cs (fun d hd => hnd d (by simp [hd])),
        charMatchRe, if_neg hp, charMatchLit]

theorem searchFrom_noDot (pat s : List Char) (hnd : ∀ c ∈ pat, c ≠ '.') :
    searchFrom charMatchRe pat s = searchFrom charMatchLit pat s := by
  induction s with
  | nil => simpa [searchFrom] using matchAt_noDot pat [] hnd
  | cons c cs ih =>
    rw [searchFrom, searchFrom, ih, matchAt_noDot _ _ hnd]

theorem ceil_div_eq (N P : Nat) (hP : 1 ≤ P) :
    (N + P - 1) / P = ⌈(N : ℚ) / (P : ℚ)⌉₊ := by
  have hP0 : (0 : ℚ) < (P : ℚ) := by exact_mod_cast hP
  apply le_antisymm
  · rcases Nat.eq_zero_or_pos ((N + P - 1) / P) with hq | hq
    · simp [hq]
    · obtain ⟨m, hm⟩ := Nat.exists_eq_succ_of_ne_zero (Nat.pos_iff_ne_zero.mp hq)
      have hd : (N + P - 1) / P * P ≤ N + P - 1 := Nat.div_mul_le_self _ _
      rw [hm, Nat.succ_mul] at hd
      have hu : m * P < N := by
        revert hd hP
        generalize m * P = u
        intro hd hP
        omega
      rw [hm, Nat.succ_eq_add_one, Nat.add_one_le_ceil_iff, lt_div_iff₀ hP0]
      exact_mod_cast hu
  · rw [Nat.ceil_le, div_le_iff₀ hP0]
    have hN : N ≤ (N + P - 1) / P * P := by
      have h2 := Nat.div_add_mod (N + P - 1) P
      have h3 : (N + P - 1) % P < P := Nat.mod_lt _ hP
      rw [Nat.mul_comm]
      revert h2 h3 hP
      generalize P * ((N + P - 1) / P) = t
      intro h2 h3 hP
      omega
    exact_mod_cast hN

/-! ## Claim C1 -/

/-- Claim C1 as frozen is false on the code: pandas str.contains defaults to
regex=True, so the filter text a.b is a regular expression whose dot matches
any character.  On the one-column table with the single row axb and the
filter text a.b, the code keeps the row although a.b does not occur as a
literal substring (ignoring case) of axb, refuting the claimed equivalence
at this concrete input. -/
theorem C1_counterexample :
    ¬ ((["axb"] ∈ applyFilters ["a.b"] [["axb"]]) ↔
        (["axb"] ∈ ([["axb"]] : List Row) ∧ specLiteralKeep ["a.b"] ["axb"] = true)) := by
  decide

/-- Claim C1, amended: in the table explorer's recompute every filter whose
stripped text is non-empty is applied as a case-insensitive regular
expression search (pandas str.contains with its default regex=True) against
the stringified column value, and a row remains in the filtered result iff
it matches all active filters; for filter texts free of the dot
metacharacter this search coincides with case-insensitive literal substring
matching. -/
theorem C1_filter_semantics (fs : List String) (rows : List Row) (r : Row) :
    (r ∈ applyFilters fs rows ↔
      r ∈ rows ∧ ∀ j, j < fs.length → isActive (fs.getD j "") = true →
        strContains (fs.getD j "") (r.getD j "") = true)
    ∧ (∀ pat v : String, (∀ c ∈ pat.toList, c ≠ '.') →
        strContains pat v = substrCI pat v) := by
  constructor
  · rw [applyFilters, applyFiltersFrom_eq_filter, List.mem_filter, keepFrom_iff]
    simp
  · intro pat v hnd
    exact searchFrom_noDot pat.toList v.toList hnd

/-- Witness for C1_filter_semantics at a concrete table: the row whose
first column is ax matches the active filter x and survives filtering. -/
theorem C1_filter_semantics_witness :
    ["ax", "q"] ∈ applyFilters ["x", ""] [["ax", "q"], ["b", "q"]] :=
  (C1_filter_semantics ["x", ""] [["ax", "q"], ["b", "q"]] ["ax", "q"]).1.mpr
    (by decide)

/-! ## Claim C2 -/

/-- Claim C2: after every recompute, for page size P at least 1 and filtered
row count N, the total page count computed on line 156 equals
max(1, ceil(N / P)) with a true rational ceiling, and the page used for
display, min(slider value, total), lies in the interval from 1 to the total
page count (the slider value is at least 1 by the slider's min bound). -/
theorem C2_pagination (N P v : Nat) (hP : 1 ≤ P) (hv : 1 ≤ v) :
    nPages N P = max 1 ⌈(N : ℚ) / (P : ℚ)⌉₊
    ∧ 1 ≤ currentPage v N P ∧ currentPage v N P ≤ nPages N P := by
  refine ⟨?_, ?_, ?_⟩
  · rw [nPages, ceil_div_eq N P hP]
  · exact Nat.le_min.mpr ⟨hv, Nat.le_max_left 1 _⟩
  · exact Nat.min_le_right _ _

/-- Witness for C2_pagination: 45 filtered rows at page size 20 give 3
pages, and slider value 7 is clamped into the interval. -/
theorem C2_pagination_witness :
    nPages 45 20 = max 1 ⌈(45 : ℚ) / (20 : ℚ)⌉₊
    ∧ 1 ≤ currentPage 7 45 20 ∧ currentPage 7 45 20 ≤ nPages 45 20 :=
  C2_pagination 45 20 7 (by decide) (by decide)

/-! ## Claim C7 -/

/-- Claim C7: AND semantics makes filtering antitone.  If a second filter
assignment g agrees with f on every column where f is active (and may
activate more columns), the filtered row count under g is at most the count
under f. -/
theorem C7_filters_antitone (rows : List Row) (f g : List String)
    (hlen : f.length = g.length)
    (hext : ∀ j, j < f.length → isActive (f.getD j "") = true →
      g.getD j "" = f.getD j "") :
    (applyFilters g rows).length ≤ (applyFilters f rows).length := by
  rw [applyFilters, applyFilters, applyFiltersFrom_eq_filter,
    applyFiltersFrom_eq_filter, ← List.countP_eq_length_filter,
    ← List.countP_eq_length_filter]
  apply List.countP_mono_left
  intro r _ hg
  rw [keepFrom_iff] at hg ⊢
  intro j hj hact
  have hgj := hext j hj hact
  have hjg : j < g.length := hlen ▸ hj
  have := hg j hjg (by rw [hgj]; exact hact)
  rwa [hgj] at this

/-- Witness for C7_filters_antitone: activating the filter a on a two-row
table drops the count from 2 to 1. -/
theorem C7_filters_antitone_witness :
    (applyFilters ["a"] [["a"], ["b"]]).length ≤
      (applyFilters [""] [["a"], ["b"]]).length :=
  C7_filters_antitone [["a"], ["b"]] [""] ["a"] (by decide) (by decide)

/-! ## Claim C8 -/

/-- Claim C8: every recompute displays exactly the filtered rows whose
indices lie in the window from (page-1)*page_size up to page*page_size
(exclusive) for the clamped current page, renders the status line in the
exact format Page page/total | count rows found, and an empty filtered
result gives an empty slice, one total page and a status line reporting 0
rows, raising no error (the embedding is a total function). -/
theorem C8_page_slice (fs : List String) (rows : List Row) (page P : Nat)
    (hP : 1 ≤ P) (hpg : 1 ≤ page) :
    (∀ j : Nat, ((updateView fs page P rows).1)[j]? =
       if j < P then
         (applyFilters fs rows)[(min page (nPages (applyFilters fs rows).length P) - 1)
           * P + j]?
       else none)
    ∧ (updateView fs page P rows).2 =
        "Page " ++ toString (min page (nPages (applyFilters fs rows).length P)) ++ "/" ++
          toString (nPages (applyFilters fs rows).length P) ++ " | " ++
          toString (applyFilters fs rows).length ++ " rows found"
    ∧ (applyFilters fs rows = [] →
        (updateView fs page P rows).1 = []
        ∧ nPages (applyFilters fs rows).length P = 1
        ∧ (updateView fs page P rows).2 = "Page 1/1 | 0 rows found") := by
  refine ⟨?_, rfl, ?_⟩
  · intro j
    by_cases hj : j < P
    · rw [if_pos hj]
      simp only [updateView]
      rw [List.getElem?_take_of_lt hj, List.getElem?_drop]
    · rw [if_neg hj]
      apply List.getElem?_eq_none
      simp only [updateView]
      calc (((applyFilters fs rows).drop
              ((min page (nPages (applyFilters fs rows).length P) - 1) * P)).take P).length
          ≤ P := by rw [List.length_take]; exact Nat.min_le_left _ _
        _ ≤ j := Nat.le_of_not_lt hj
  · intro h
    have h0 : (0 + P - 1) / P = 0 := Nat.div_eq_of_lt (by omega)
    have hnp : nPages (applyFilters fs rows).length P = 1 := by
      rw [h, List.length_nil, nPages, h0]
      decide
    have hcp : min page (nPages (applyFilters fs rows).length P) = 1 := by
      rw [hnp]
      exact Nat.min_eq_right hpg
    refine ⟨?_, hnp, ?_⟩
    · simp [updateView, h]
    · simp only [updateView, statusLine]
      rw [h, List.length_nil] at hcp ⊢
      rw [hcp]
      rw [show nPages 0 P = 1 from by rw [nPages, h0]; decide]
      rfl

/-- Witness for C8_page_slice: three filtered rows at page size 2, slider
on page 2: the second page holds the third row and the status line reads
Page 2/2 | 3 rows found. -/
theorem C8_page_slice_witness :
    (updateView [] 2 2 [["a"], ["b"], ["c"]]).2 = "Page 2/2 | 3 rows found" :=
  ((C8_page_slice [] [["a"], ["b"], ["c"]] 2 2 (by decide) (by decide)).2.1).trans
    (by decide)

/-! ## Helper lemmas for the heatmap builder -/

section HeatmapLemmas

variable {G X Y : Type} [DecidableEq G] [DecidableEq X] [DecidableEq Y]

theorem find?_eq_mem {α : Type} [DecidableEq α] (l : List α) (a : α) :
    l.find? (fun c => decide (c = a)) = if a ∈ l then some a else none := by
  induction l with
  | nil => simp
  | cons b l ih =>
    by_cases hb : b = a
    · subst hb
      simp [List.find?]
    · rw [List.find?_cons_of_neg _ (by simpa using hb), ih]
      by_cases ha : a ∈ l
      · rw [if_pos ha, if_pos (List.mem_cons_of_mem b ha)]
      · have hno : a ∉ b :: l := by
          simp only [List.mem_cons]
          rintro (rfl | hmem)
          · exact hb rfl
          · exact ha hmem
        rw [if_neg ha, if_neg hno]

theorem comboCounts_find? (df : List (HRow G X Y)) (t : HRow G X Y) :
    (comboCounts df).find? (fun p => decide (p.1 = t)) =
      if t ∈ df then some (t, df.countP (fun r => decide (r = t))) else none := by
  rw [comboCounts, List.find?_map]
  have hped :
      List.find? ((fun p : HRow G X Y × Nat => decide (p.1 = t)) ∘
        (fun c => (c, df.countP (fun r => decide (r = c))))) df.dedup =
      List.find? (fun c => decide (c = t)) df.dedup := rfl
  rw [hped, find?_eq_mem df.dedup t]
  simp only [List.mem_dedup]
  by_cases h : t ∈ df
  · rw [if_pos h, if_pos h]
    rfl
  · rw [if_neg h, if_neg h]
    rfl

theorem rawCell_eq (df : List (HRow G X Y)) (g : G) (y : Y) (x : X) :
    rawCell df g y x =
      if (g, x, y) ∈ df then
        some ((df.countP (fun r => decide (r = (g, x, y))) : ℚ))
      else none := by
  rw [rawCell, comboCounts_find?]
  by_cases h : (g, x, y) ∈ df
  · rw [if_pos h, if_pos h]
  · rw [if_neg h, if_neg h]

theorem rawCell_getD_nonneg (df : List (HRow G X Y)) (g : G) (y : Y) (x : X) :
    0 ≤ (rawCell df g y x).getD 0 := by
  rw [rawCell_eq]
  by_cases h : (g, x, y) ∈ df
  · rw [if_pos h]
    simp
  · rw [if_neg h]
    exact le_refl 0

theorem getD_map_mul (o : Option ℚ) (k : ℚ) :
    ((o.map (fun c => c * k)).getD 0) = o.getD 0 * k := by
  cases o with
  | none => simp
  | some c => rfl

theorem gridSum_div_scale (df : List (HRow G X Y)) (f : Y → X → Option ℚ) (t : ℚ) :
    gridSum df (fun y x => (f y x).map (fun c => c / t * 100)) =
      gridSum df f / t * 100 := by
  rw [gridSum, gridSum]
  simp only [div_eq_mul_inv, mul_assoc]
  simp only [getD_map_mul, List.sum_map_mul_right]

theorem mem_groupVals (df : List (HRow G X Y)) (g : G) :
    g ∈ groupVals df ↔ ∃ c ∈ df, c.1 = g := by
  rw [groupVals, List.mem_dedup, comboCounts, List.map_map, List.mem_map]
  constructor
  · rintro ⟨c, hc, hcg⟩
    exact ⟨c, List.mem_dedup.mp hc, hcg⟩
  · rintro ⟨c, hc, hcg⟩
    exact ⟨c, List.mem_dedup.mpr hc, hcg⟩

theorem mem_allX (df : List (HRow G X Y)) {c : HRow G X Y} (hc : c ∈ df) :
    c.2.1 ∈ allX df := by
  rw [allX, List.mem_dedup, comboCounts, List.map_map, List.mem_map]
  exact ⟨c, List.mem_dedup.mpr hc, rfl⟩

theorem mem_allY (df : List (HRow G X Y)) {c : HRow G X Y} (hc : c ∈ df) :
    c.2.2 ∈ allY df := by
  rw [allY, List.mem_dedup, comboCounts, List.map_map, List.mem_map]
  exact ⟨c, List.mem_dedup.mpr hc, rfl⟩

theorem mem_allX_iff (df : List (HRow G X Y)) (x : X) :
    x ∈ allX df ↔ x ∈ df.map (fun r => r.2.1) := by
  rw [allX, List.mem_dedup, comboCounts, List.map_map, List.mem_map, List.mem_map]
  constructor
  · rintro ⟨c, hc, hcx⟩
    exact ⟨c, List.mem_dedup.mp hc, hcx⟩
  · rintro ⟨c, hc, hcx⟩
    exact ⟨c, List.mem_dedup.mpr hc, hcx⟩

theorem mem_allY_iff (df : List (HRow G X Y)) (y : Y) :
    y ∈ allY df ↔ y ∈ df.map (fun r => r.2.2) := by
  rw [allY, List.mem_dedup, comboCounts, List.map_map, List.mem_map, List.mem_map]
  constructor
  · rintro ⟨c, hc, hcy⟩
    exact ⟨c, List.mem_dedup.mp hc, hcy⟩
  · rintro ⟨c, hc, hcy⟩
    exact ⟨c, List.mem_dedup.mpr hc, hcy⟩

theorem one_le_totalG (df : List (HRow G X Y)) (g : G) (hg : g ∈ groupVals df) :
    1 ≤ totalG df g := by
  obtain ⟨c, hc, hcg⟩ := (mem_groupVals df g).mp hg
  obtain ⟨g1, x, y⟩ := c
  have hg1 : g1 = g := hcg
  subst hg1
  have hcell : 1 ≤ (rawCell df g1 y x).getD 0 := by
    rw [rawCell_eq, if_pos hc]
    have hcnt : 1 ≤ df.countP (fun r => decide (r = (g1, x, y))) :=
      List.countP_pos_iff.mpr ⟨(g1, x, y), hc, by simp⟩
    simp only [Option.getD_some]
    exact_mod_cast hcnt
  have hx : x ∈ allX df := mem_allX df hc
  have hy : y ∈ allY df := mem_allY df hc
  have hinner : (rawCell df g1 y x).getD 0 ≤
      ((allX df).map (fun u => (rawCell df g1 y u).getD 0)).sum := by
    apply List.single_le_sum
    · intro v hv
      obtain ⟨u, -, rfl⟩ := List.mem_map.mp hv
      exact rawCell_getD_nonneg df g1 y u
    · exact List.mem_map_of_mem _ hx
  have houter : ((allX df).map (fun u => (rawCell df g1 y u).getD 0)).sum ≤
      totalG df g1 := by
    apply List.single_le_sum
    · intro v hv
      obtain ⟨w, -, rfl⟩ := List.mem_map.mp hv
      apply List.sum_nonneg
      intro s hs
      obtain ⟨u, -, rfl⟩ := List.mem_map.mp hs
      exact rawCell_getD_nonneg df g1 w u
    · exact List.mem_map_of_mem _ hy
  exact le_trans hcell (le_trans hinner houter)

end HeatmapLemmas

/-! ## Claims C3, C4, C6 and C9 -/

section HeatmapClaims

variable {G X Y : Type} [DecidableEq G] [DecidableEq X] [DecidableEq Y]

/-- Claim C3: with normalize on, for every group of positive total observed
count each cell of the panel is the cell count divided by the group total
times 100, and the sum of the non-null cells of the panel is exactly 100
(exact rational arithmetic subsumes the floating-point tolerance). -/
theorem C3_normalized_panel (df : List (HRow G X Y)) (g : G)
    (hT : 0 < totalG df g) :
    (∀ y x, (panelFor df true g).cell y x =
      (rawCell df g y x).map (fun c => c / totalG df g * 100))
    ∧ gridSum df ((panelFor df true g).cell) = 100 := by
  have hcell : ∀ y x, (panelFor df true g).cell y x =
      (rawCell df g y x).map (fun c => c / totalG df g * 100) := by
    intro y x
    show normCell df true g y x = _
    rw [normCell, if_pos ⟨rfl, hT⟩]
  refine ⟨hcell, ?_⟩
  have hrw : gridSum df ((panelFor df true g).cell) =
      gridSum df (fun y x => (rawCell df g y x).map (fun c => c / totalG df g * 100)) := by
    rw [gridSum, gridSum]
    simp only [hcell]
  rw [hrw, gridSum_div_scale]
  show totalG df g / totalG df g * 100 = 100
  rw [div_self (ne_of_gt hT), one_mul]

/-- Witness for C3_normalized_panel on the specification's example table:
group A has total 2 and its normalized panel sums to 100. -/
theorem C3_normalized_panel_witness :
    gridSum dfEx ((panelFor dfEx true "A").cell) = 100 :=
  (C3_normalized_panel dfEx "A"
    (lt_of_lt_of_le zero_lt_one (one_le_totalG dfEx "A" (by decide)))).2

/-- Claim C4: every panel is indexed by the same x list and the same y list
as every other panel, namely the distinct x values and distinct y values
observed across the entire table (not per group), without duplicates. -/
theorem C4_shared_axes (df : List (HRow G X Y)) (nb : Bool) (g : G)
    (_hg : g ∈ groupVals df) :
    ((panelFor df nb g).xs = allX df ∧ (panelFor df nb g).ys = allY df)
    ∧ (∀ g2 ∈ groupVals df, (panelFor df nb g2).xs = (panelFor df nb g).xs
        ∧ (panelFor df nb g2).ys = (panelFor df nb g).ys)
    ∧ (∀ x : X, x ∈ (panelFor df nb g).xs ↔ x ∈ df.map (fun r => r.2.1))
    ∧ (∀ y : Y, y ∈ (panelFor df nb g).ys ↔ y ∈ df.map (fun r => r.2.2))
    ∧ (panelFor df nb g).xs.Nodup ∧ (panelFor df nb g).ys.Nodup :=
  ⟨⟨rfl, rfl⟩, fun _ _ => ⟨rfl, rfl⟩, mem_allX_iff df, mem_allY_iff df,
    List.nodup_dedup _, List.nodup_dedup _⟩

/-- Witness for C4_shared_axes on the example table: the panels of groups
A and B share the x-axis list. -/
theorem C4_shared_axes_witness :
    (panelFor dfEx true "B").xs = (panelFor dfEx true "A").xs :=
  ((C4_shared_axes dfEx true "A" (by decide)).2.1 "B" (by decide)).1

/-- Claim C6: with normalize on, a group whose total observed count is zero
keeps its raw (all no-data) cells and its panel is labelled COUNT; the
normalization branch is skipped for that panel alone (every panel is a pure
function of the table and its own group value). -/
theorem C6_zero_total_raw (df : List (HRow G X Y)) (g : G)
    (h0 : totalG df g = 0) :
    (∀ y x, (panelFor df true g).cell y x = rawCell df g y x)
    ∧ (panelFor df true g).isNormalized = false
    ∧ metricLabel (panelFor df true g).isNormalized = "COUNT" := by
  have hcond : ¬ (true = true ∧ 0 < totalG df g) := by
    rintro ⟨-, hlt⟩
    rw [h0] at hlt
    exact lt_irrefl 0 hlt
  have hcell : ∀ y x, (panelFor df true g).cell y x = rawCell df g y x := by
    intro y x
    show normCell df true g y x = _
    rw [normCell, if_neg hcond]
  have hnorm : (panelFor df true g).isNormalized = false := by
    show (true && decide (0 < totalG df g)) = false
    rw [h0]
    simp
  exact ⟨hcell, hnorm, by rw [hnorm]; simp [metricLabel]⟩

theorem totalG_dfNoA_A : totalG dfNoA "A" = 0 := by
  have hcell : rawCell dfNoA "A" "y1" "x1" = none := by
    rw [rawCell_eq, if_neg (by decide)]
  show gridSum dfNoA (rawCell dfNoA "A") = 0
  rw [gridSum, show allY dfNoA = ["y1"] from by decide,
    show allX dfNoA = ["x1"] from by decide]
  simp [hcell]

/-- Witness for C6_zero_total_raw: on a table where group A never occurs
its total is zero and its panel stays a raw COUNT panel. -/
theorem C6_zero_total_raw_witness :
    (panelFor dfNoA true "A").isNormalized = false
    ∧ metricLabel (panelFor dfNoA true "A").isNormalized = "COUNT" :=
  ⟨(C6_zero_total_raw dfNoA "A" totalG_dfNoA_A).2.1,
   (C6_zero_total_raw dfNoA "A" totalG_dfNoA_A).2.2⟩

/-- Claim C9: every paneled group value comes from the per-combination
counts table, so its total observed count is at least 1; with normalize on
the raw-count fallback branch is therefore unreachable and every rendered
panel is actually normalized. -/
theorem C9_fallback_unreachable (df : List (HRow G X Y)) (g : G)
    (hg : g ∈ groupVals df) :
    1 ≤ totalG df g ∧ (panelFor df true g).isNormalized = true := by
  have h1 := one_le_totalG df g hg
  refine ⟨h1, ?_⟩
  show (true && decide (0 < totalG df g)) = true
  rw [decide_eq_true (lt_of_lt_of_le zero_lt_one h1)]
  rfl

/-- Witness for C9_fallback_unreachable: group A of the example table has
total at least 1 and its panel is normalized. -/
theorem C9_fallback_unreachable_witness :
    1 ≤ totalG dfEx "A" ∧ (panelFor dfEx true "A").isNormalized = true :=
  C9_fallback_unreachable dfEx "A" (by decide)

end HeatmapClaims

/-! ## Claims C5 and C10 -/

/-- Claim C5: for every input row the place lookup is attempted first with
the short code query (code plus the word Airport); when it yields no match
the lookup is retried with the full name; when the retry succeeds with a
place id P (a real, non-empty id), details are fetched for P and the output
row carries the returned name, rating and review count; when both lookups
fail the output row records null rating and null reviews, and no exception
is raised for the row (the embedded row processing is a total function). -/
theorem C5_lookup_fallback (env : PlacesEnv) (code name P : String) :
    (get_place_id env (code ++ " Airport") = none →
      get_place_id env name = some P → P ≠ "" →
      processRow env code name = successRecord code name (env.details P))
    ∧ (get_place_id env (code ++ " Airport") = none →
      get_place_id env name = none →
      processRow env code name = failRecord code name) := by
  constructor
  · intro h1 h2 hne
    have hPfalse : P.isEmpty = false := by
      rw [← Bool.not_eq_true]
      intro hemp
      exact hne ((String.isEmpty_iff P).mp hemp)
    simp [processRow, h1, h2, pyFalsy, hPfalse]
  · intro h1 h2
    simp [processRow, h1, h2, pyFalsy]

/-- Witness for C5_lookup_fallback under the concrete environment envEx:
the code lookup for NOP fails, the name lookup succeeds with PID1, and the
output row is the full record carrying the details of PID1. -/
theorem C5_lookup_fallback_witness :
    processRow envEx "NOP" "Nowhere Intl" =
      successRecord "NOP" "Nowhere Intl" (envEx.details "PID1") :=
  (C5_lookup_fallback envEx "NOP" "Nowhere Intl" "PID1").1
    (by decide) (by decide) (by decide)

/-- Claim C10: when both lookups fail the appended record has exactly the
keys APT_CODE, APT_NAME, rating and reviews, omitting GOOGLE_NAME, while a
record built after a successful lookup contains the GOOGLE_NAME key:
failure rows and success rows have different shapes. -/
theorem C10_record_shapes (env : PlacesEnv) (code name : String) :
    (pyFalsy (get_place_id env (code ++ " Airport")) = true →
      pyFalsy (get_place_id env name) = true →
      (processRow env code name).map Prod.fst =
        ["APT_CODE", "APT_NAME", "rating", "reviews"]
      ∧ "GOOGLE_NAME" ∉ (processRow env code name).map Prod.fst)
    ∧ (pyFalsy (if pyFalsy (get_place_id env (code ++ " Airport")) then
          get_place_id env name
        else get_place_id env (code ++ " Airport")) = false →
      "GOOGLE_NAME" ∈ (processRow env code name).map Prod.fst) := by
  constructor
  · intro h1 h2
    have hfail : processRow env code name = failRecord code name := by
      simp [processRow, h1, h2]
    rw [hfail]
    refine ⟨rfl, ?_⟩
    show "GOOGLE_NAME" ∉ (["APT_CODE", "APT_NAME", "rating", "reviews"] : List String)
    decide
  · intro h
    have hsucc : processRow env code name =
        successRecord code name (env.details
          ((if pyFalsy (get_place_id env (code ++ " Airport")) then
              get_place_id env name
            else get_place_id env (code ++ " Airport")).getD "")) := by
      rw [processRow]
      rw [if_neg (by rw [h]; exact Bool.false_ne_true)]
    rw [hsucc]
    simp [successRecord]

/-- Witness for C10_record_shapes: under envEx the row whose two queries
both fail yields the four-key record without GOOGLE_NAME. -/
theorem C10_record_shapes_witness :
    (processRow envEx "ZZZ" "Unknown Airfield").map Prod.fst =
      ["APT_CODE", "APT_NAME", "rating", "reviews"] :=
  ((C10_record_shapes envEx "ZZZ" "Unknown Airfield").1
    (by decide) (by decide)).1

end ATSLab
